import Mathlib

/-!
Verification of `app/modules/intelligence/tools/code_query_tools/get_code_graph_from_node_id_tool.py`
(`GetCodeGraphFromNodeIdTool`), a graph-subtree retrieval tool: `_build_tree` /
`build_node_tree` reconstruct a rooted tree from the flat node rows returned by
the Neo4j query, `_get_relative_file_path` rewrites absolute paths, and
`_process_graph_data` assembles the response envelope.  Python dicts are
embedded as Lean structures / inductives, the in-place mutation of the node
dicts is made explicit by threading the record state, and the `try/except` of
`run` is embedded as `Except`-valued collaborator results.
-/

/-- A child reference dict as produced by the Neo4j query in `_get_graph_data`:
keys `id, name, type, file_path, start_line, end_line, relationship`.  The
`children` field models the optional `children` key that only exists after
`build_node_tree` executes `child["children"] = built_child["children"]`
(`none` = key absent, which `_process_graph_data` reads as `[]` via
`node.get("children", [])`). -/
inductive CRef : Type where
  | mk (id name type file_path : String) (start_line end_line : Option Int)
       (relationship : String) (children : Option (List CRef)) : CRef

def CRef.id : CRef → String
  | .mk i _ _ _ _ _ _ _ => i

def CRef.name : CRef → String
  | .mk _ n _ _ _ _ _ _ => n

def CRef.type : CRef → String
  | .mk _ _ t _ _ _ _ _ => t

def CRef.file_path : CRef → String
  | .mk _ _ _ f _ _ _ _ => f

def CRef.start_line : CRef → Option Int
  | .mk _ _ _ _ s _ _ _ => s

def CRef.end_line : CRef → Option Int
  | .mk _ _ _ _ _ e _ _ => e

def CRef.relationship : CRef → String
  | .mk _ _ _ _ _ _ r _ => r

def CRef.children : CRef → Option (List CRef)
  | .mk _ _ _ _ _ _ _ c => c

/-- `child["children"] = built_child["children"]` : setting the `children` key. -/
def CRef.withChildren : CRef → List CRef → CRef
  | .mk i n t f s e r _, cs => .mk i n t f s e r (some cs)

mutual
/-- Structural equality of child-reference dicts (Python `==` on dicts compares
all keys and values), used by `list.remove`. -/
def CRef.decEq : (a b : CRef) → Decidable (a = b)
  | .mk i1 n1 t1 f1 s1 e1 r1 c1, .mk i2 n2 t2 f2 s2 e2 r2 c2 =>
    if h : i1 = i2 ∧ n1 = n2 ∧ t1 = t2 ∧ f1 = f2 ∧ s1 = s2 ∧ e1 = e2 ∧ r1 = r2 then
      match CRef.decEqOpt c1 c2 with
      | isTrue hc => isTrue (by
          obtain ⟨h1, h2, h3, h4, h5, h6, h7⟩ := h
          subst h1; subst h2; subst h3; subst h4; subst h5; subst h6; subst h7
          subst hc; rfl)
      | isFalse hc => isFalse (by intro he; injection he; exact hc (by assumption))
    else
      isFalse (by intro he; injection he; exact h (by simp_all))

def CRef.decEqOpt : (a b : Option (List CRef)) → Decidable (a = b)
  | none, none => isTrue rfl
  | none, some _ => isFalse (by simp)
  | some _, none => isFalse (by simp)
  | some l1, some l2 =>
    match CRef.decEqList l1 l2 with
    | isTrue h => isTrue (by rw [h])
    | isFalse h => isFalse (by intro he; injection he; exact h (by assumption))

def CRef.decEqList : (a b : List CRef) → Decidable (a = b)
  | [], [] => isTrue rfl
  | [], _ :: _ => isFalse (by simp)
  | _ :: _, [] => isFalse (by simp)
  | x :: xs, y :: ys =>
    match CRef.decEq x y, CRef.decEqList xs ys with
    | isTrue h1, isTrue h2 => isTrue (by rw [h1, h2])
    | isFalse h1, _ => isFalse (by intro he; injection he; exact h1 (by assumption))
    | _, isFalse h2 => isFalse (by intro he; injection he; exact h2 (by assumption))
end

instance : DecidableEq CRef := CRef.decEq

/-- A top-level node row (`node_data`) as returned by the fetcher query: one
dict per touched node, with its direct children as reference dicts. -/
structure PyNode where
  id : String
  name : String
  type : String
  file_path : String
  start_line : Option Int
  end_line : Option Int
  children : List CRef
  deriving DecidableEq

/-- `node_map = {node["id"]: node for node in nodes}` — later entries overwrite
earlier ones, so `node_map[i]` is the last record with id `i`. -/
def mapFind (m : List PyNode) (i : String) : Option PyNode :=
  m.reverse.find? (fun n => n.id == i)

/-- `child["id"] in node_map` (key membership). -/
def mapContains (m : List PyNode) (i : String) : Bool :=
  m.any (fun n => n.id == i)

/-- Writing through `node_map[i]` mutates the dict object shared with the
input list; that object is the last list element with that id, so the update
replaces the last record whose id is `i`. -/
def updMapAux : List PyNode → String → PyNode → List PyNode
  | [], _, _ => []
  | n :: tl, i, v => if n.id = i then v :: tl else n :: updMapAux tl i v

def updMap (m : List PyNode) (i : String) (v : PyNode) : List PyNode :=
  (updMapAux m.reverse i v).reverse

mutual
/-- `build_node_tree(current_node)` from `_build_tree`, with the heap made
explicit: `m` is the current state of the node records (the values of
`node_map` and of the fetched list, which alias each other), `visited` the
shared visited set.  `fuel` only bounds the recursion depth; `none` means out
of fuel, which `build_suffices` below shows unreachable for
`fuel > number of records`.  The body's in-place mutations of
`current_node["children"]` are folded into the single `updMap` on return:
this is observationally equal because after a node's id enters `visited` its
dict is only ever consulted through the recursion entry check, which reads the
`id` key alone, and `id` is never written. -/
def build_node_treeF (fuel : Nat) (m : List PyNode) (visited : List String)
    (node : PyNode) : Option (List PyNode × List String × Option PyNode) :=
  if visited.contains node.id then
    some (m, visited, none)
  else
    match fuel with
    | 0 => none
    | f + 1 =>
      -- visited.add(current_node["id"]) followed by
      -- current_node["children"] = [child for child in current_node["children"]
      --                             if child["id"] in node_map]
      match buildLoopF f m (node.id :: visited)
          (node.children.filter (fun c => mapContains m c.id)) 0 with
      | none => none
      | some (m', v', cs') =>
        some (updMap m' node.id { node with children := cs' }, v',
              some { node with children := cs' })
termination_by (fuel, 0, 0)

/-- The `for child in current_node["children"]:` loop of `build_node_tree`.
`i` is the index the list iterator will read next.
`current_node["children"].remove(child)` removes the first structurally-equal
element (Python `list.remove` with dict `==`), shrinking the list
mid-iteration — so the element that follows a removed one is never visited by
the iterator. -/
def buildLoopF (fuel : Nat) (m : List PyNode) (visited : List String)
    (lst : List CRef) (i : Nat) : Option (List PyNode × List String × List CRef) :=
  if h : i < lst.length then
    let child := lst[i]
    match mapFind m child.id with
    | none =>
      -- unreachable: every element of lst survived the `child["id"] in node_map`
      -- filter above (in Python this index access cannot fail)
      buildLoopF fuel m visited lst (i + 1)
    | some childNode =>
      match build_node_treeF fuel m visited childNode with
      | none => none
      | some (m', v', some built) =>
        -- if built_child: child["children"] = built_child["children"]
        buildLoopF fuel m' v' (lst.set i (child.withChildren built.children)) (i + 1)
      | some (m', v', none) =>
        -- else: current_node["children"].remove(child)
        buildLoopF fuel m' v' (lst.erase child) (i + 1)
  else
    some (m, visited, lst)
termination_by (fuel, 1, lst.length - i)
end

/-- `_build_tree(nodes, root_id)`: first component is the final state of the
node records (they are mutated in place by `build_node_tree`), second the
returned tree (`None` when `root_id` is not a key of `node_map`). -/
def buildTreeWithMap (nodes : List PyNode) (root_id : String) :
    List PyNode × Option PyNode :=
  match mapFind nodes root_id with
  | none => (nodes, none)
  | some root =>
    match build_node_treeF (nodes.length + 1) nodes [] root with
    | some (m', _, r) => (m', r)
    | none => (nodes, none)   -- unreachable: `nodes.length + 1` fuel always suffices

/-- The value `_build_tree(nodes, root_id)` returns. -/
def build (nodes : List PyNode) (root_id : String) : Option PyNode :=
  (buildTreeWithMap nodes root_id).2

/-- The fields of the SQLAlchemy `Project` row that `_process_graph_data` reads. -/
structure Project where
  repo_name : String
  branch_name : String
  deriving DecidableEq

/-- Python `str.split("/")`: split at every `'/'`, keeping empty segments
(`"a//b"` gives `["a", "", "b"]`, `""` gives `[""]`).  `acc` holds the
characters of the current segment in reverse. -/
def splitOnSlashAux : List Char → List Char → List String
  | [], acc => [String.mk acc.reverse]
  | c :: cs, acc =>
    if c = '/' then String.mk acc.reverse :: splitOnSlashAux cs []
    else splitOnSlashAux cs (c :: acc)

/-- `file_path.split("/")`. -/
def splitOnSlash (s : String) : List String := splitOnSlashAux s.data []

/-- `_get_relative_file_path(file_path)`: `""` (falsy) and `"Unknown"` map to
`"Unknown"`; otherwise split on `"/"`, find the first `"projects"` segment
(`list.index`), and join the segments after skipping it plus one more
(`parts[projects_index + 2 :]`); `ValueError` (no such segment) returns the
input unchanged. -/
def getRelativeFilePath (file_path : String) : String :=
  if file_path = "" ∨ file_path = "Unknown" then "Unknown"
  else
    let parts := splitOnSlash file_path
    match parts.indexOf? "projects" with
    | some projects_index => String.intercalate "/" (parts.drop (projects_index + 2))
    | none => file_path

/-- A string is an absolute filesystem path when it starts with `'/'`. -/
def isAbsolutePath (s : String) : Bool :=
  match s.data with
  | [] => false
  | c :: _ => c = '/'

/-- An output node dict built by `process_node` in `_process_graph_data`:
`relationship` is `none` for the root (the key is never set there) and
`some r` for children (set by the parent right after the recursive call). -/
inductive OutNode : Type where
  | mk (id name type file_path : String) (start_line end_line : Option Int)
       (relationship : Option String) (children : List OutNode) : OutNode

def OutNode.id : OutNode → String
  | .mk i _ _ _ _ _ _ _ => i

def OutNode.file_path : OutNode → String
  | .mk _ _ _ f _ _ _ _ => f

def OutNode.relationship : OutNode → Option String
  | .mk _ _ _ _ _ _ r _ => r

def OutNode.children : OutNode → List OutNode
  | .mk _ _ _ _ _ _ _ c => c

mutual
/-- `process_node(child)` for a child reference dict, fused with the
`processed_child["relationship"] = child["relationship"]` assignment the
parent performs right after the recursive call (each recursive call is
immediately followed by that assignment, so the processed child always ends up
carrying its own reference's relationship).  `node.get("children", [])` reads
`[]` when the `children` key is absent. -/
def process_node : CRef → OutNode
  | .mk i n t f s e r none =>
    .mk i n t (getRelativeFilePath f) s e (some r) (process_node_list [])
  | .mk i n t f s e r (some cs) =>
    .mk i n t (getRelativeFilePath f) s e (some r) (process_node_list cs)

/-- The `for child in node.get("children", [])` loop of `process_node`. -/
def process_node_list : List CRef → List OutNode
  | [] => []
  | c :: cs => process_node c :: process_node_list cs
end

/-- `process_node(graph_data)` applied to the root row: same field copies, but
no `relationship` key is ever attached to the root. -/
def process_root (node : PyNode) : OutNode :=
  .mk node.id node.name node.type (getRelativeFilePath node.file_path)
    node.start_line node.end_line none (process_node_list node.children)

/-- The dict under the `"graph"` key of a successful result. -/
structure CodeGraph where
  name : String
  repo_name : String
  branch_name : String
  root_node : OutNode

/-- `_process_graph_data(graph_data, project)`. -/
def processGraphData (graph_data : PyNode) (project : Project) : CodeGraph :=
  { name := "Code Graph for " ++ project.repo_name
    repo_name := project.repo_name
    branch_name := project.branch_name
    root_node := process_root graph_data }

/-- The dictionary `run` returns: either `{"error": msg}` or `{"graph": {...}}`. -/
inductive RunResult : Type where
  | error (msg : String) : RunResult
  | ok (graph : CodeGraph) : RunResult

/-- `_get_graph_data` after the session query: `nodes` are the fetched rows;
an empty result returns `None`, otherwise `_build_tree(nodes, node_id)`. -/
def getGraphData (nodes : List PyNode) (node_id : String) : Option PyNode :=
  if nodes.isEmpty then none else build nodes node_id

/-- `run(project_id, node_id)`.  The two store calls are embedded as
`Except`-valued arguments: `Except.error e` models the call raising an
exception with message `str(e) = e`, which the outer `try/except` converts
into the structured error dict; `projectRes = Except.ok none` models
`_get_project` returning `None`.  `run` is a total function into `RunResult`,
mirroring that every failure is returned as a value, never raised. -/
def run (project_id node_id : String) (projectRes : Except String (Option Project))
    (fetchRes : Except String (List PyNode)) : RunResult :=
  match projectRes with
  | .error e => .error ("An unexpected error occurred: " ++ e)
  | .ok none => .error ("Project with ID '" ++ project_id ++ "' not found in database")
  | .ok (some project) =>
    match fetchRes with
    | .error e => .error ("An unexpected error occurred: " ++ e)
    | .ok nodes =>
      match getGraphData nodes node_id with
      | none => .error ("No graph data found for node ID '" ++ node_id ++
          "' in repo '" ++ project_id ++ "'")
      | some graph_data => .ok (processGraphData graph_data project)

mutual
/-- All `file_path` values of a raw (built) node tree, reading an absent
`children` key as no children — the traversal `_process_graph_data` performs. -/
def CRef.rawPaths : CRef → List String
  | .mk _ _ _ f _ _ _ none => [f]
  | .mk _ _ _ f _ _ _ (some cs) => f :: CRef.rawPathsList cs

def CRef.rawPathsList : List CRef → List String
  | [] => []
  | c :: cs => c.rawPaths ++ CRef.rawPathsList cs
end

def PyNode.rawPaths (n : PyNode) : List String :=
  n.file_path :: CRef.rawPathsList n.children

mutual
/-- All `file_path` values of an output tree. -/
def OutNode.paths : OutNode → List String
  | .mk _ _ _ f _ _ _ cs => f :: OutNode.pathsList cs

def OutNode.pathsList : List OutNode → List String
  | [] => []
  | c :: cs => c.paths ++ OutNode.pathsList cs
end

mutual
/-- Number of times id `x` is materialized in a built tree (an absent
`children` key contributes no children, as in `_process_graph_data`). -/
def CRef.countId (x : String) : CRef → Nat
  | .mk i _ _ _ _ _ _ none => if i = x then 1 else 0
  | .mk i _ _ _ _ _ _ (some cs) => (if i = x then 1 else 0) + CRef.countIdList x cs

def CRef.countIdList (x : String) : List CRef → Nat
  | [] => 0
  | c :: cs => CRef.countId x c + CRef.countIdList x cs
end

def PyNode.countId (n : PyNode) (x : String) : Nat :=
  (if n.id = x then 1 else 0) + CRef.countIdList x n.children

/-- Ids of the records, in list order (the keys of `node_map`, up to duplicates). -/
def mapIds (m : List PyNode) : List String := m.map (fun n => n.id)

/-- Number of record ids not yet visited — the termination measure of
`build_node_tree`: it strictly decreases at every recursive expansion. -/
def uCount (m : List PyNode) (v : List String) : Nat :=
  ((mapIds m).toFinset \ v.toFinset).card

/-- A fetched node row with the given id and children, other fields fixed. -/
def sampleNode (i : String) (cs : List CRef) : PyNode :=
  ⟨i, i, "FUNCTION", "Unknown", none, none, cs⟩

/-- A fetched child reference with the given id and relationship (no
`children` key, as in every row the Neo4j query produces). -/
def sampleRef (i rel : String) : CRef :=
  .mk i i "FUNCTION" "Unknown" none none rel none

/-- Record set where the root's first child reference closes a self-loop and
a second, expandable child follows it. -/
def c1nodes : List PyNode :=
  [sampleNode "R" [sampleRef "R" "self_loop", sampleRef "B" "calls_b"],
   sampleNode "B" [sampleRef "C" "calls_c"],
   sampleNode "C" []]

/-- Record set with a cycle `R → R` recorded twice (two parallel self edges
with distinct relationship labels), root `R` present. -/
def c2nodes : List PyNode :=
  [sampleNode "R" [sampleRef "R" "edge_a", sampleRef "R" "edge_b"]]

/-- The spec's two-node cycle `A → B → A`. -/
def cycleNodes : List PyNode :=
  [sampleNode "A" [sampleRef "B" "calls"],
   sampleNode "B" [sampleRef "A" "back"]]

/-- The spec's diamond `A → B, A → C, B → D, C → D`. -/
def diamondNodes : List PyNode :=
  [sampleNode "A" [sampleRef "B" "ab", sampleRef "C" "ac"],
   sampleNode "B" [sampleRef "D" "bd"],
   sampleNode "C" [sampleRef "D" "cd"],
   sampleNode "D" []]

/-- The spec's 3-node chain `root → child → gc`. -/
def chainNodes : List PyNode :=
  [sampleNode "root" [sampleRef "child" "CALLS"],
   sampleNode "child" [sampleRef "gc" "DEFINES"],
   sampleNode "gc" []]

def demoProject : Project := ⟨"demo", "main"⟩

/-- A single fetched node whose file path is absolute but contains no
`"projects"` segment. -/
def c6node : PyNode :=
  ⟨"n1", "n1", "FILE", "/var/data/other/file.py", none, none, []⟩

/-- The tree `_build_tree(diamondNodes, "A")` produces: `D` is expanded under
`B` (visited first) and only referenced-then-dropped under `C`. -/
def diamondBuilt : PyNode :=
  ⟨"A", "A", "FUNCTION", "Unknown", none, none,
   [CRef.mk "B" "B" "FUNCTION" "Unknown" none none "ab"
      (some [CRef.mk "D" "D" "FUNCTION" "Unknown" none none "bd" (some [])]),
    CRef.mk "C" "C" "FUNCTION" "Unknown" none none "ac" (some [])]⟩

/-- The envelope `run` assembles for `chainNodes` under `demoProject`. -/
def c5graph : CodeGraph :=
  { name := "Code Graph for demo"
    repo_name := "demo"
    branch_name := "main"
    root_node := .mk "root" "root" "FUNCTION" "Unknown" none none none
      [.mk "child" "child" "FUNCTION" "Unknown" none none (some "CALLS")
        [.mk "gc" "gc" "FUNCTION" "Unknown" none none (some "DEFINES") []]] }

/-- The envelope `run` assembles for the single node `c6node`: its absolute
file path survives to the output unchanged. -/
def c6graph : CodeGraph :=
  { name := "Code Graph for demo"
    repo_name := "demo"
    branch_name := "main"
    root_node := .mk "n1" "n1" "FILE" "/var/data/other/file.py" none none none [] }

/-- The final state of the `cycleNodes` records after `_build_tree`: both
records' `children` arrays have been rewritten in place. -/
def c9finalRecords : List PyNode :=
  [⟨"A", "A", "FUNCTION", "Unknown", none, none,
     [CRef.mk "B" "B" "FUNCTION" "Unknown" none none "calls" (some [])]⟩,
   ⟨"B", "B", "FUNCTION", "Unknown", none, none, []⟩]

/-- The tree `_build_tree(cycleNodes, "A")` returns (the mutated `A` record). -/
def cycleBuilt : PyNode :=
  ⟨"A", "A", "FUNCTION", "Unknown", none, none,
   [CRef.mk "B" "B" "FUNCTION" "Unknown" none none "calls" (some [])]⟩

/-- `v` is contained in `v'` as a visited set (the visited set only grows). -/
def VisSub (v v' : List String) : Prop :=
  ∀ x, v.contains x = true → v'.contains x = true

/-- Fuel-sufficiency invariant for `build_node_treeF` at a given fuel: whenever
at most `fuel` record ids are unvisited, the call cannot run out of fuel, ids
are preserved, the visited set only grows, and an unvisited node is returned
expanded. -/
def TreeFuelOk (fuel : Nat) : Prop :=
  ∀ m v node, uCount m v ≤ fuel → node.id ∈ mapIds m →
    ∃ m' v' r, build_node_treeF fuel m v node = some (m', v', r) ∧
      mapIds m' = mapIds m ∧ VisSub v v' ∧
      (v.contains node.id = false → ∃ cs', r = some { node with children := cs' })

theorem contains_iff (v : List String) (x : String) : v.contains x = true ↔ x ∈ v :=
  List.elem_iff

theorem visSub_refl (v : List String) : VisSub v v := fun _ h => h

theorem visSub_trans {a b c : List String} (h1 : VisSub a b) (h2 : VisSub b c) :
    VisSub a c := fun x h => h2 x (h1 x h)

theorem visSub_cons (x : String) (v : List String) : VisSub v (x :: v) := by
  intro y h
  rw [contains_iff] at h ⊢
  exact List.mem_cons_of_mem _ h

theorem mapFind_id {m : List PyNode} {i : String} {n : PyNode}
    (h : mapFind m i = some n) : n.id = i := by
  have := List.find?_some h
  simpa using this

theorem mapFind_mem_ids {m : List PyNode} {i : String} {n : PyNode}
    (h : mapFind m i = some n) : i ∈ mapIds m := by
  have hmem : n ∈ m := by simpa using List.mem_of_find?_eq_some h
  have hid := mapFind_id h
  rw [← hid]
  exact List.mem_map_of_mem _ hmem

theorem mapFind_eq_none_iff {m : List PyNode} {i : String} :
    mapFind m i = none ↔ ∀ n ∈ m, n.id ≠ i := by
  simp [mapFind, List.find?_eq_none]

theorem mapFind_isSome_of_exists {m : List PyNode} {i : String}
    (h : ∃ n ∈ m, n.id = i) : ∃ n, mapFind m i = some n := by
  have hs : (mapFind m i).isSome := by
    rw [mapFind, List.find?_isSome]
    obtain ⟨n, hn, hid⟩ := h
    exact ⟨n, by simpa using hn, by simp [hid]⟩
  exact Option.isSome_iff_exists.mp hs

theorem updMapAux_ids (l : List PyNode) (i : String) (v : PyNode) (hv : v.id = i) :
    (updMapAux l i v).map (fun n => n.id) = l.map (fun n => n.id) := by
  induction l with
  | nil => rfl
  | cons n tl ih =>
    by_cases h : n.id = i
    · simp [updMapAux, h, hv]
    · simp [updMapAux, h, ih]

theorem updMap_ids (m : List PyNode) (i : String) (v : PyNode) (hv : v.id = i) :
    mapIds (updMap m i v) = mapIds m := by
  unfold updMap mapIds
  rw [List.map_reverse, updMapAux_ids _ _ _ hv, ← List.map_reverse,
    List.reverse_reverse]

theorem uCount_eq_of_ids {m' m : List PyNode} (h : mapIds m' = mapIds m)
    (v : List String) : uCount m' v = uCount m v := by
  unfold uCount
  rw [h]

theorem uCount_mono {m : List PyNode} {v v' : List String} (h : VisSub v v') :
    uCount m v' ≤ uCount m v := by
  apply Finset.card_le_card
  apply Finset.sdiff_subset_sdiff (Finset.Subset.refl _)
  intro x hx
  rw [List.mem_toFinset] at hx ⊢
  exact (contains_iff _ _).mp (h x ((contains_iff _ _).mpr hx))

theorem uCount_pos {m : List PyNode} {v : List String} {i : String}
    (hi : i ∈ mapIds m) (hv : v.contains i = false) : 0 < uCount m v := by
  apply Finset.card_pos.mpr
  refine ⟨i, ?_⟩
  rw [Finset.mem_sdiff, List.mem_toFinset, List.mem_toFinset]
  refine ⟨hi, fun hmem => ?_⟩
  rw [(contains_iff _ _).mpr hmem] at hv
  cases hv

theorem uCount_cons_lt {m : List PyNode} {v : List String} {i : String}
    (hi : i ∈ mapIds m) (hv : v.contains i = false) :
    uCount m (i :: v) < uCount m v := by
  apply Finset.card_lt_card
  have hsub : (mapIds m).toFinset \ (i :: v).toFinset ⊆
      (mapIds m).toFinset \ v.toFinset := by
    apply Finset.sdiff_subset_sdiff (Finset.Subset.refl _)
    rw [List.toFinset_cons]
    exact Finset.subset_insert _ _
  rw [Finset.ssubset_iff_of_subset hsub]
  refine ⟨i, ?_, ?_⟩
  · rw [Finset.mem_sdiff, List.mem_toFinset, List.mem_toFinset]
    refine ⟨hi, fun hmem => ?_⟩
    rw [(contains_iff _ _).mpr hmem] at hv
    cases hv
  · rw [Finset.mem_sdiff]
    rintro ⟨-, hnot⟩
    apply hnot
    rw [List.toFinset_cons]
    exact Finset.mem_insert_self _ _

theorem loop_suffices (fuel : Nat) (htree : TreeFuelOk fuel) :
    ∀ k m v lst i, lst.length - i ≤ k → uCount m v ≤ fuel →
      ∃ m' v' lst', buildLoopF fuel m v lst i = some (m', v', lst') ∧
        mapIds m' = mapIds m ∧ VisSub v v' := by
  intro k
  induction k with
  | zero =>
    intro m v lst i hk hu
    have hni : ¬ i < lst.length := by omega
    refine ⟨m, v, lst, ?_, rfl, visSub_refl v⟩
    rw [buildLoopF, dif_neg hni]
  | succ k ih =>
    intro m v lst i hk hu
    by_cases h : i < lst.length
    · rw [buildLoopF, dif_pos h]
      cases hf : mapFind m (lst[i].id) with
      | none =>
        obtain ⟨m', v', lst', heq, hids, hsub⟩ := ih m v lst (i + 1) (by omega) hu
        exact ⟨m', v', lst', by simp only [hf, heq], hids, hsub⟩
      | some childNode =>
        have hcid : childNode.id ∈ mapIds m := by
          rw [mapFind_id hf]
          exact mapFind_mem_ids hf
        obtain ⟨m1, v1, r, heq1, hids1, hsub1, -⟩ := htree m v childNode hu hcid
        have hu1 : uCount m1 v1 ≤ fuel :=
          le_trans (le_of_eq (uCount_eq_of_ids hids1 v1))
            (le_trans (uCount_mono hsub1) hu)
        cases r with
        | some built =>
          obtain ⟨m2, v2, lst2, heq2, hids2, hsub2⟩ :=
            ih m1 v1 (lst.set i (lst[i].withChildren built.children)) (i + 1)
              (by rw [List.length_set]; omega) hu1
          exact ⟨m2, v2, lst2, by simp only [hf, heq1, heq2], hids2.trans hids1,
            visSub_trans hsub1 hsub2⟩
        | none =>
          obtain ⟨m2, v2, lst2, heq2, hids2, hsub2⟩ :=
            ih m1 v1 (lst.erase lst[i]) (i + 1)
              (by have hle : (lst.erase lst[i]).length ≤ lst.length :=
                    List.length_erase_le _ _
                  omega) hu1
          exact ⟨m2, v2, lst2, by simp only [hf, heq1, heq2], hids2.trans hids1,
            visSub_trans hsub1 hsub2⟩
    · refine ⟨m, v, lst, ?_, rfl, visSub_refl v⟩
      rw [buildLoopF, dif_neg h]

theorem treeFuelOk_zero : TreeFuelOk 0 := by
  intro m v node hu hid
  by_cases hv : v.contains node.id = true
  · refine ⟨m, v, none, ?_, rfl, visSub_refl v, fun hc => ?_⟩
    · rw [build_node_treeF, if_pos hv]
    · rw [hv] at hc
      cases hc
  · have hv' : v.contains node.id = false := by simpa using hv
    have := uCount_pos hid hv'
    omega

theorem treeFuelOk_succ (f : Nat) (hf : TreeFuelOk f) : TreeFuelOk (f + 1) := by
  intro m v node hu hid
  by_cases hv : v.contains node.id = true
  · refine ⟨m, v, none, ?_, rfl, visSub_refl v, fun hc => ?_⟩
    · rw [build_node_treeF, if_pos hv]
    · rw [hv] at hc
      cases hc
  · have hv' : v.contains node.id = false := by simpa using hv
    have hu' : uCount m (node.id :: v) ≤ f := by
      have := uCount_cons_lt hid hv'
      omega
    obtain ⟨m1, v1, cs1, hloop, hids, hsub⟩ :=
      loop_suffices f hf (node.children.filter (fun c => mapContains m c.id)).length
        m (node.id :: v) (node.children.filter (fun c => mapContains m c.id)) 0
        (by omega) hu'
    refine ⟨updMap m1 node.id { node with children := cs1 }, v1,
      some { node with children := cs1 }, ?_, ?_, ?_, fun _ => ⟨cs1, rfl⟩⟩
    · rw [build_node_treeF, if_neg hv]
      simp only [hloop]
    · rw [updMap_ids m1 node.id { node with children := cs1 } rfl]
      exact hids
    · exact visSub_trans (visSub_cons node.id v) hsub

theorem treeFuelOk_all : ∀ fuel, TreeFuelOk fuel
  | 0 => treeFuelOk_zero
  | f + 1 => treeFuelOk_succ f (treeFuelOk_all f)

/-- `_build_tree` never runs out of fuel and, when some record carries the
requested root id, returns the (expanded) root record. -/
theorem build_some_of_mem {nodes : List PyNode} {rid : String}
    (h : ∃ n ∈ nodes, n.id = rid) :
    ∃ t, build nodes rid = some t ∧ t.id = rid := by
  obtain ⟨root, hroot⟩ := mapFind_isSome_of_exists h
  have hrid : root.id = rid := mapFind_id hroot
  have hmem : root.id ∈ mapIds nodes := by
    rw [hrid]
    exact mapFind_mem_ids hroot
  have hu : uCount nodes [] ≤ nodes.length + 1 := by
    unfold uCount
    have h1 : (mapIds nodes).toFinset.card ≤ (mapIds nodes).length :=
      List.toFinset_card_le _
    have h2 : (mapIds nodes).length = nodes.length := List.length_map _ _
    simp only [List.toFinset_nil, Finset.sdiff_empty]
    omega
  obtain ⟨m1, v1, r, heq, -, -, himpl⟩ :=
    treeFuelOk_all (nodes.length + 1) nodes [] root hu hmem
  obtain ⟨cs', hr⟩ := himpl rfl
  refine ⟨{ root with children := cs' }, ?_, hrid⟩
  unfold build buildTreeWithMap
  rw [hroot]
  simp only [heq, hr]

/-- `_build_tree` returns `None` exactly when no record carries the root id. -/
theorem build_none_of_not_mem {nodes : List PyNode} {rid : String}
    (h : ∀ n ∈ nodes, n.id ≠ rid) : build nodes rid = none := by
  unfold build buildTreeWithMap
  rw [mapFind_eq_none_iff.mpr h]

mutual
theorem process_node_paths (c : CRef) :
    OutNode.paths (process_node c) = c.rawPaths.map getRelativeFilePath := by
  match c with
  | .mk i n t f s e r none =>
    simp [process_node, OutNode.paths, CRef.rawPaths, process_node_list,
      OutNode.pathsList]
  | .mk i n t f s e r (some cs) =>
    have h := process_node_list_paths cs
    simp [process_node, OutNode.paths, CRef.rawPaths, h]

theorem process_node_list_paths (l : List CRef) :
    OutNode.pathsList (process_node_list l) =
      (CRef.rawPathsList l).map getRelativeFilePath := by
  match l with
  | [] => simp [process_node_list, OutNode.pathsList, CRef.rawPathsList]
  | c :: cs =>
    have h1 := process_node_paths c
    have h2 := process_node_list_paths cs
    simp [process_node_list, OutNode.pathsList, CRef.rawPathsList, h1, h2]
end

theorem process_root_paths (node : PyNode) :
    OutNode.paths (process_root node) = node.rawPaths.map getRelativeFilePath := by
  simp [process_root, OutNode.paths, PyNode.rawPaths, process_node_list_paths]

theorem getRelativeFilePath_trichotomy (fp : String) :
    getRelativeFilePath fp = "Unknown" ∨
    (∃ i, (splitOnSlash fp).indexOf? "projects" = some i ∧
      getRelativeFilePath fp =
        String.intercalate "/" ((splitOnSlash fp).drop (i + 2))) ∨
    ((splitOnSlash fp).indexOf? "projects" = none ∧ getRelativeFilePath fp = fp) := by
  unfold getRelativeFilePath
  by_cases h : fp = "" ∨ fp = "Unknown"
  · left
    rw [if_pos h]
  · rw [if_neg h]
    cases hidx : (splitOnSlash fp).indexOf? "projects" with
    | none =>
      right; right
      exact ⟨rfl, by simp only [hidx]⟩
    | some j =>
      right; left
      exact ⟨j, rfl, by simp only [hidx]⟩

/-- Claim C1 (refuted by the code; evaluation at the failing input): in
`build_node_tree`, when the first child reference of `R` (a self-loop, already
visited) is dropped via `list.remove` during iteration, the iterator skips the
next reference: the surviving child `B` is kept but never recursively
expanded — no `children` key is spliced into it (and `B`'s own subtree
`B → C` is lost), contradicting "every child reference … that survives the
existence filter … is recursively expanded". -/
theorem C1_remove_skips_next_child :
    build c1nodes "R" =
      some ⟨"R", "R", "FUNCTION", "Unknown", none, none, [sampleRef "B" "calls_b"]⟩ ∧
    (sampleRef "B" "calls_b").children = none := by
  constructor
  · simp [build, buildTreeWithMap, build_node_treeF, buildLoopF, mapFind, mapContains,
      updMap, updMapAux, CRef.id, CRef.withChildren, c1nodes, sampleNode, sampleRef,
      List.erase]
  · rfl

/-- Claim C2 counterexample: the record set `c2nodes` contains a cycle
(`R → R`, twice) and the root id, yet the built tree repeats id `R` on a
root-to-leaf path: the second self-referencing edge is not dropped (it is
skipped by the iterator after the first one is removed) and survives as a
child of `R` with id `R`. -/
theorem C2_cycle_counterexample :
    build c2nodes "R" =
      some ⟨"R", "R", "FUNCTION", "Unknown", none, none, [sampleRef "R" "edge_b"]⟩ ∧
    (sampleRef "R" "edge_b").id = "R" := by
  constructor
  · simp [build, buildTreeWithMap, build_node_treeF, buildLoopF, mapFind, mapContains,
      updMap, updMapAux, CRef.id, CRef.withChildren, c2nodes, sampleNode, sampleRef,
      List.erase]
  · rfl

/-- Claim C2, amended: `build` terminates (the fuel bound is never reached)
and returns a tree for every record set containing the root id, because each
id is expanded at most once globally and the visited set only grows; for the
spec's two-node cycle `A → B → A` the cycle-closing edge `B → A` is dropped
and no id repeats on the single root-to-leaf path — but a visited-node
reference that immediately follows another dropped reference survives
unexpanded, so in general an id may reappear on a path. -/
theorem C2_amended_termination :
    (∀ (nodes : List PyNode) (rid : String), (∃ n ∈ nodes, n.id = rid) →
      (build nodes rid).isSome = true) ∧
    build cycleNodes "A" = some cycleBuilt := by
  constructor
  · intro nodes rid h
    obtain ⟨t, ht, -⟩ := build_some_of_mem h
    rw [ht]
    rfl
  · simp [build, buildTreeWithMap, build_node_treeF, buildLoopF, mapFind, mapContains,
      updMap, updMapAux, CRef.id, CRef.withChildren, cycleNodes, cycleBuilt,
      sampleNode, sampleRef, List.erase]

/-- Witness for `C2_amended_termination` at the concrete cycle input. -/
theorem C2_amended_termination_witness :
    (build cycleNodes "A").isSome = true :=
  C2_amended_termination.1 cycleNodes "A"
    ⟨sampleNode "A" [sampleRef "B" "calls"], by decide, rfl⟩

/-- Claim C3 (confirmed): for the diamond `A → B, A → C, B → D, C → D` with
root `A`, `build` terminates and `D` is materialized exactly once in the whole
output — under `B` (visited first) and not under `C` — and every other id is
materialized exactly once as well. -/
theorem C3_diamond_shared_node_once :
    build diamondNodes "A" = some diamondBuilt ∧
    diamondBuilt.countId "D" = 1 ∧ diamondBuilt.countId "A" = 1 ∧
    diamondBuilt.countId "B" = 1 ∧ diamondBuilt.countId "C" = 1 := by
  refine ⟨?_, by decide, by decide, by decide, by decide⟩
  simp [build, buildTreeWithMap, build_node_treeF, buildLoopF, mapFind, mapContains,
    updMap, updMapAux, CRef.id, CRef.withChildren, diamondNodes, diamondBuilt,
    sampleNode, sampleRef, List.erase]

/-- Claim C4 (confirmed): `_build_tree` returns `None` when no record carries
`root_id`, and a tree rooted at `root_id` when some record does. -/
theorem C4_root_resolution (nodes : List PyNode) (rid : String) :
    ((∃ n ∈ nodes, n.id = rid) → ∃ t, build nodes rid = some t ∧ t.id = rid) ∧
    ((∀ n ∈ nodes, n.id ≠ rid) → build nodes rid = none) :=
  ⟨build_some_of_mem, build_none_of_not_mem⟩

/-- Witness for `C4_root_resolution` on the chain records: present root gives
a tree rooted there, absent root gives `None`. -/
theorem C4_root_resolution_witness :
    (∃ t, build chainNodes "root" = some t ∧ t.id = "root") ∧
    build chainNodes "missing" = none :=
  ⟨(C4_root_resolution chainNodes "root").1
      ⟨sampleNode "root" [sampleRef "child" "CALLS"], by decide, rfl⟩,
   (C4_root_resolution chainNodes "missing").2 (by decide)⟩

/-- Claim C5 (confirmed): for the 3-node chain and project metadata
`{repo_name: "demo", branch_name: "main"}`, the assembled envelope has
`graph.name = "Code Graph for demo"`, the root carries no relationship label,
`children[0].relationship` is the fetched edge type `"CALLS"`, and
`children[0].children[0].id` is the grandchild id. -/
theorem C5_envelope_chain :
    run "p1" "root" (Except.ok (some demoProject)) (Except.ok chainNodes) =
      RunResult.ok c5graph ∧
    c5graph.name = "Code Graph for demo" ∧
    c5graph.root_node.relationship = none ∧
    c5graph.root_node.children.map OutNode.relationship = [some "CALLS"] ∧
    c5graph.root_node.children.map (fun c => c.children.map OutNode.id) = [["gc"]] := by
  refine ⟨?_, rfl, rfl, rfl, rfl⟩
  have hu : getRelativeFilePath "Unknown" = "Unknown" := by decide
  simp [run, getGraphData, build, buildTreeWithMap, build_node_treeF, buildLoopF,
    mapFind, mapContains, updMap, updMapAux, CRef.id, CRef.withChildren,
    processGraphData, process_root, process_node, process_node_list, hu,
    chainNodes, demoProject, c5graph, sampleNode, sampleRef, List.erase]

/-- Claim C6 counterexample: a successful envelope can carry an absolute
file path — a fetched path with no `"projects"` segment passes through
`_get_relative_file_path` unchanged, so the output node's `file_path` is
neither `"Unknown"` nor repository-relative. -/
theorem C6_absolute_path_counterexample :
    run "p1" "n1" (Except.ok (some demoProject)) (Except.ok [c6node]) =
      RunResult.ok c6graph ∧
    c6graph.root_node.file_path = "/var/data/other/file.py" ∧
    c6graph.root_node.file_path ≠ "Unknown" ∧
    isAbsolutePath c6graph.root_node.file_path = true := by
  refine ⟨?_, rfl, by decide, by decide⟩
  have hv : getRelativeFilePath "/var/data/other/file.py" =
      "/var/data/other/file.py" := by decide
  simp [run, getGraphData, build, buildTreeWithMap, build_node_treeF, buildLoopF,
    mapFind, mapContains, updMap, updMapAux, CRef.id, CRef.withChildren,
    processGraphData, process_root, process_node, process_node_list, hv,
    c6node, demoProject, c6graph, List.erase]

/-- Claim C6, amended: every `file_path` in a successful envelope is the
normalizer image of the corresponding fetched path, and the normalizer either
returns `"Unknown"`, or strips through the first `"projects"` segment plus one
more, or — when no `"projects"` segment exists — returns the fetched path
unchanged (so absolute paths without the anchor survive to the output). -/
theorem C6_amended_path_invariant :
    (∀ (graph_data : PyNode) (project : Project),
      OutNode.paths ((processGraphData graph_data project).root_node) =
        graph_data.rawPaths.map getRelativeFilePath) ∧
    (∀ fp : String, getRelativeFilePath fp = "Unknown" ∨
      (∃ i, (splitOnSlash fp).indexOf? "projects" = some i ∧
        getRelativeFilePath fp =
          String.intercalate "/" ((splitOnSlash fp).drop (i + 2))) ∨
      ((splitOnSlash fp).indexOf? "projects" = none ∧ getRelativeFilePath fp = fp)) :=
  ⟨fun graph_data _ => process_root_paths graph_data, getRelativeFilePath_trichotomy⟩

/-- Claim C7 (confirmed): the four normalizer test vectors from the spec. -/
theorem C7_normalizer_vectors :
    getRelativeFilePath "Unknown" = "Unknown" ∧
    getRelativeFilePath "" = "Unknown" ∧
    getRelativeFilePath "/home/user/projects/abc123/src/main.py" = "src/main.py" ∧
    getRelativeFilePath "/var/data/other/file.py" = "/var/data/other/file.py" := by
  refine ⟨by decide, by decide, by decide, by decide⟩

/-- Claim C8 (confirmed): `run` is a total function into `RunResult` (no
exception escapes), a missing project yields the structured not-found error
for every possible graph-store outcome (the store is never consulted), and
any exception from either store call is caught and returned as the
unexpected-error envelope. -/
theorem C8_error_envelopes :
    (∀ (pid nid : String) (fetchRes : Except String (List PyNode)),
      run pid nid (Except.ok none) fetchRes =
        RunResult.error ("Project with ID '" ++ pid ++ "' not found in database")) ∧
    (∀ (pid nid e : String) (fetchRes : Except String (List PyNode)),
      run pid nid (Except.error e) fetchRes =
        RunResult.error ("An unexpected error occurred: " ++ e)) ∧
    (∀ (pid nid e : String) (project : Project),
      run pid nid (Except.ok (some project)) (Except.error e) =
        RunResult.error ("An unexpected error occurred: " ++ e)) :=
  ⟨fun _ _ _ => rfl, fun _ _ _ _ => rfl, fun _ _ _ _ => rfl⟩

/-- Claim C9 counterexample: `_build_tree` mutates the input records — after
building the two-node cycle, both records' `children` arrays differ from the
fetched originals (the `A → B` reference gained a spliced `children` key and
`B`'s cycle-closing reference was removed). -/
theorem C9_mutation_counterexample :
    (buildTreeWithMap cycleNodes "A").1 ≠ cycleNodes ∧
    (buildTreeWithMap cycleNodes "A").1 = c9finalRecords := by
  have h : buildTreeWithMap cycleNodes "A" = (c9finalRecords, some cycleBuilt) := by
    simp [buildTreeWithMap, build_node_treeF, buildLoopF, mapFind, mapContains,
      updMap, updMapAux, CRef.id, CRef.withChildren, cycleNodes, c9finalRecords,
      cycleBuilt, sampleNode, sampleRef, List.erase]
  rw [h]
  exact ⟨by decide, rfl⟩

/-- Claim C9, amended: NodeRecord values are produced by one fetch and
consumed within the same request, but the tree builder does mutate them after
creation: every record it expands has its `children` array filtered and
rewritten in place (the returned tree is the mutated root record itself);
records are left untouched only when nothing is expanded, e.g. when the root
id is absent. -/
theorem C9_amended_builder_mutates :
    (∀ (nodes : List PyNode) (rid : String),
      mapFind nodes rid = none → buildTreeWithMap nodes rid = (nodes, none)) ∧
    buildTreeWithMap cycleNodes "A" = (c9finalRecords, some cycleBuilt) := by
  constructor
  · intro nodes rid h
    unfold buildTreeWithMap
    rw [h]
  · simp [buildTreeWithMap, build_node_treeF, buildLoopF, mapFind, mapContains,
      updMap, updMapAux, CRef.id, CRef.withChildren, cycleNodes, c9finalRecords,
      cycleBuilt, sampleNode, sampleRef, List.erase]

/-- Witness for `C9_amended_builder_mutates`: with an absent root id the
records come back unchanged. -/
theorem C9_amended_builder_mutates_witness :
    buildTreeWithMap cycleNodes "missing" = (cycleNodes, none) :=
  C9_amended_builder_mutates.1 cycleNodes "missing" (by decide)

/-- Claim C10 counterexample: `"/projects/x/projects/repo"` is non-empty, not
`"Unknown"`, and has `"projects"` as its second-to-last segment, yet the
normalizer returns `"projects/repo"`, not `""` — `list.index` finds the FIRST
`"projects"` segment, not the late one. -/
theorem C10_anchor_counterexample :
    "/projects/x/projects/repo" ≠ "" ∧
    "/projects/x/projects/repo" ≠ "Unknown" ∧
    (splitOnSlash "/projects/x/projects/repo").getD 3 "" = "projects" ∧
    (splitOnSlash "/projects/x/projects/repo").length = 5 ∧
    getRelativeFilePath "/projects/x/projects/repo" = "projects/repo" ∧
    "projects/repo" ≠ "" := by
  refine ⟨by decide, by decide, by decide, by decide, by decide, by decide⟩

/-- Claim C10, amended: for every non-empty path other than `"Unknown"` whose
FIRST `"projects"` segment is the last or second-to-last segment, the
normalizer returns the empty string. -/
theorem C10_amended_empty_suffix (fp : String) (h1 : fp ≠ "") (h2 : fp ≠ "Unknown")
    (i : Nat) (hidx : (splitOnSlash fp).indexOf? "projects" = some i)
    (hlen : (splitOnSlash fp).length ≤ i + 2) :
    getRelativeFilePath fp = "" := by
  unfold getRelativeFilePath
  rw [if_neg (by simp [h1, h2])]
  simp only [hidx]
  rw [List.drop_eq_nil_of_le hlen]
  rfl

/-- Witness for `C10_amended_empty_suffix` at `"/home/user/projects/repo"`. -/
theorem C10_amended_empty_suffix_witness :
    "/home/user/projects/repo" ≠ "" ∧
    (splitOnSlash "/home/user/projects/repo").indexOf? "projects" = some 3 ∧
    (splitOnSlash "/home/user/projects/repo").length ≤ 5 ∧
    getRelativeFilePath "/home/user/projects/repo" = "" :=
  ⟨by decide, by decide, by decide,
   C10_amended_empty_suffix "/home/user/projects/repo" (by decide) (by decide) 3
     (by decide) (by decide)⟩
